import Mathlib

/-!
Shallow embedding of the `fsight-datacache` caching proxy
(`src/datacache.rs`, `src/proxy.rs`) and proofs about it.

Modelling conventions:
* Machine integers appearing in the source (`i64` TTL, `usize` lengths,
  timestamps) are modelled as `Int`/`Nat`; nothing here can overflow in a way
  the claims depend on.
* Byte strings (`Bytes`, `Vec<u8>`, `&[u8]`) are `List Nat`.
* `warp::http::HeaderMap` is an ordered list of name/value pairs with a
  case-insensitive first-match lookup, mirroring `HeaderMap::get`.
* The sled engine is an association list `Db`; a stored value is either a
  byte string that bincode-deserializes to a `CacheEntry` (`StoredData.valid`)
  or one that fails to deserialize (`StoredData.corrupt`) — bincode itself is
  an external crate, only its success/failure branching is relevant.
* Engine I/O failures (sled `get`/`insert` returning `Err`) and the external
  forwarder result (`proxy_to_and_forward_response`) are oracle parameters,
  matching the spec's treatment of them as opaque collaborators.
* `Utc::now()` is an explicit `now : Int` parameter (seconds); elapsed time
  `(now - ctime).num_seconds()` becomes `now - ctime`.
* Logging (`info!`/`error!`) and the debug body capture (`save_body`, whose
  result `handle_request` discards with `let _ =`) have no effect on any
  modelled observable and are omitted.
* The blake3 fingerprint is an external crate; `handle_request` receives the
  already-computed fingerprint string as the `hash` argument, since no claim
  concerns the digest function itself.
-/

namespace Datacache

/-- Raw bytes, one `Nat` per byte. -/
abbrev Bytes := List Nat

/-- Response/entry header map: ordered name/value pairs. -/
structure HeaderMap where
  entries : List (String × String)
deriving DecidableEq, Repr

/-- ASCII lowercasing of one character — HTTP header names compare
case-insensitively over ASCII, which is exactly this folding. -/
def lowerChar (c : Char) : Char :=
  if 65 ≤ c.toNat ∧ c.toNat ≤ 90 then Char.ofNat (c.toNat + 32) else c

/-- A header name folded to its case-insensitive normal form. -/
def lowerName (s : String) : List Char := s.toList.map lowerChar

/-- Case-insensitive header-name equality. -/
def headerNameEq (a b : String) : Bool := lowerName a == lowerName b

/-- First-match, case-insensitive lookup, mirroring `http::HeaderMap::get`
(header names compare case-insensitively). -/
def lookupName (l : List (String × String)) (k : String) : Option String :=
  (l.find? (fun p => headerNameEq p.1 k)).map (fun p => p.2)

def HeaderMap.get (h : HeaderMap) (k : String) : Option String :=
  lookupName h.entries k

/-- `warp::http::Response<Bytes>`: status code, headers, body. -/
structure Response where
  status : Nat
  headers : HeaderMap
  body : Bytes
deriving DecidableEq, Repr

/-- `CacheEntry` from `src/datacache.rs`: saved response data plus creation
time (`ctime : DateTime<Utc>`, modelled in seconds). -/
structure CacheEntry where
  status : Nat
  headers : HeaderMap
  body : Bytes
  ctime : Int
deriving DecidableEq, Repr

/-- `CACHE_HEADER_KEYS` from `src/datacache.rs`: the fixed allow-list of
header names copied onto a reconstructed cached response. -/
def CACHE_HEADER_KEYS : List String := [
  "Access-Control-Allow-Headers",
  "Access-Control-Allow-Origin",
  "Access-Control-Allow-Methods",
  "Content-Type",
  "Strict-Transport-Security",
  "Content-Security-Policy",
  "Referrer-Policy",
  "X-XSS-Protection",
  "X-Content-Type-Options"
  ]

/-- Modelled from the spec: the synthetic server-identity header value
`SERVER_NAME/SERVER_VERSION`; the two constants come from Cargo package
metadata (`env!("CARGO_PKG_NAME")`, `env!("CARGO_PKG_VERSION")`) which is not
under `src/`. No claim depends on the concrete value. -/
def serverHeaderValue : String := "fsight-datacache/0.1.0"

/-- The `for key in CACHE_HEADER_KEYS` loop of `CacheEntry::to_response`:
append `(key, value)` for each allow-listed key present in the stored
headers. -/
def addCacheHeaders (headers : HeaderMap) (keys : List String)
    (acc : List (String × String)) : List (String × String) :=
  match keys with
  | [] => acc
  | key :: rest =>
    match headers.get key with
    | some v => addCacheHeaders headers rest (acc ++ [(key, v)])
    | none => addCacheHeaders headers rest acc

/-- `CacheEntry::to_response`: status, a synthetic `Server` header, the
allow-listed headers present in the stored map, and the body verbatim.
(The source returns `Result` because the header builder can fail; every
header value here comes from a valid `HeaderMap`, so it is total.) -/
def CacheEntry.to_response (e : CacheEntry) : Response :=
  { status := e.status
    headers := ⟨addCacheHeaders e.headers CACHE_HEADER_KEYS
      [("Server", serverHeaderValue)]⟩
    body := e.body }

/-- `CacheEntry::from_response`: snapshot status, full header map, body, and
the current time. -/
def CacheEntry.from_response (r : Response) (now : Int) : CacheEntry :=
  { status := r.status, headers := r.headers, body := r.body, ctime := now }

/-- Value stored in the sled engine: serialized bytes that either
deserialize back to an entry or are corrupt. -/
inductive StoredData where
  | valid (e : CacheEntry)
  | corrupt
deriving DecidableEq, Repr

/-- Branching behaviour of `bincode::deserialize::<CacheEntry>`. -/
def bincodeDeserialize : StoredData → Except Unit CacheEntry
  | .valid e => .ok e
  | .corrupt => .error ()

/-- Sled database contents: most recent insert first (`dbLookup` takes the
first match, so an insert shadows older values under the same key). -/
abbrev Db := List (String × StoredData)

def dbLookup (db : Db) (k : String) : Option StoredData :=
  (db.find? (fun p => p.1 == k)).map (fun p => p.2)

def dbInsert (db : Db) (k : String) (v : StoredData) : Db := (k, v) :: db

/-- `self.db.get(&hash)`: sled get, which may fail with an engine I/O
error (the oracle `fails`). -/
def engineGet (db : Db) (k : String) (fails : Bool) :
    Except Unit (Option StoredData) :=
  if fails then .error () else .ok (dbLookup db k)

/-- Result of `DataCache::get`: a panic (from `.unwrap()` on the engine
result), a propagated `Err`, or `Ok(Option<Response>)`. -/
inductive GetOutcome where
  | panic
  | err
  | ok (r : Option Response)
deriving DecidableEq, Repr

/-- `DataCache::get` (`src/datacache.rs:107-145`): unwrap the engine get
(panicking on engine failure); on present data, deserialize (`?` propagates a
failure as `Err`); compute `age = now - ctime`; return `Ok(None)` when
`age > ttl` or the body is empty, otherwise `Ok(Some(entry.to_response()))`. -/
def DataCache.get (ttl : Int) (engineResult : Except Unit (Option StoredData))
    (now : Int) : GetOutcome :=
  match engineResult with
  | .error _ => .panic
  | .ok none => .ok none
  | .ok (some data) =>
    match bincodeDeserialize data with
    | .error _ => .err
    | .ok entry =>
      let age := now - entry.ctime
      if age > ttl then
        .ok none
      else
        if entry.body.length > 0 then
          .ok (some entry.to_response)
        else
          .ok none

/-- `DataCache::insert` (`src/datacache.rs:147-153`): serialize the entry
snapshot and insert it; `fails` is the oracle for a serialization or engine
error. -/
def DataCache.insert (db : Db) (hash : String) (r : Response) (now : Int)
    (fails : Bool) : Except Unit Db :=
  if fails then .error ()
  else .ok (dbInsert db hash (.valid (CacheEntry.from_response r now)))

/-- `MAGIC_LEN` from `CacheProxy::filter_body`. -/
def MAGIC_LEN : Nat := 12

/-- `CacheProxy::filter_body` (`src/proxy.rs:53-75`): active only when the
configured pattern list is non-empty; a body shorter than `MAGIC_LEN` is
rejected; otherwise count the patterns matching the first `MAGIC_LEN` bytes
(`None` always matches, `Some p` matches iff its bytes equal them) and accept
iff the count is positive. Patterns are Rust `String`s compared through
`as_bytes()`, so they are modelled by their byte sequences. -/
def filter_body (filter_include : List (Option Bytes)) (body : Bytes) : Bool :=
  if 0 < filter_include.length then
    if body.length < MAGIC_LEN then
      false
    else
      let magic := body.take MAGIC_LEN
      decide (0 < filter_include.countP (fun f =>
        match f with
        | some pattern => pattern == magic
        | none => true))
  else true

/-- HTTP methods relevant to `handle_request`'s dispatch. -/
inductive Method where
  | GET | POST | PUT | DELETE | HEAD | OPTIONS | PATCH
deriving DecidableEq, Repr

/-- `http::HeaderValue` byte validity used by `"...".parse::<HeaderValue>()`:
a byte is legal iff it is horizontal tab or in `32..` excluding 127. On a
UTF-8 string this is equivalent to the per-character test below (characters
below 32 other than tab, and DEL, encode to an illegal byte; characters at
128 and above encode entirely to bytes ≥ 128, all legal). -/
def validHeaderValueChar (c : Char) : Bool :=
  c.toNat == 9 || (32 ≤ c.toNat && c.toNat != 127)

/-- `self.host.parse::<HeaderValue>()`: `some` iff every character is legal. -/
def parseHeaderValue (s : String) : Option String :=
  if s.toList.all validHeaderValueChar then some s else none

/-- Configuration fields of `CacheProxy` that the modelled behaviour reads
(`proxy_address`, `base_path` and `rq_save_path` only feed the opaque
forwarder and the discarded debug capture). -/
structure ProxyConfig where
  host : String
  filter_include : List (Option Bytes)
  ttl : Int
deriving DecidableEq, Repr

/-- Result of `CacheProxy::handle_request`: a panic (an `unwrap` failed), a
propagated forwarder `Err`, or `Ok(response)`. -/
inductive Outcome where
  | panic
  | err
  | ok (r : Response)
deriving DecidableEq, Repr

/-- The tail of `handle_request` after the cache-lookup step (the
"continue processing with request to destination service" section,
`src/proxy.rs:130-177`): rewrite the `Host` header with
`self.host.parse().unwrap()` (panicking when the configured host is not a
valid header value); invoke the forwarder — `Err(err)` propagates; on
`Ok(res)`, insert into the cache only when the status is OK (200) and
`filter_body` accepts the body, ignoring any insert error; in every
forwarded case return `res` unchanged. -/
def forwardPhase (cfg : ProxyConfig) (db : Db) (hash : String) (now : Int)
    (forwardResult : Except Unit Response) (insertFails : Bool) :
    Outcome × Db :=
  match parseHeaderValue cfg.host with
  | none => (Outcome.panic, db)
  | some _ =>
    match forwardResult with
    | .error _ => (Outcome.err, db)
    | .ok res =>
      if res.status = 200 then
        if filter_body cfg.filter_include res.body = false then
          (Outcome.ok res, db)
        else
          match DataCache.insert db hash res now insertFails with
          | .error _ => (Outcome.ok res, db)
          | .ok db2 => (Outcome.ok res, db2)
      else (Outcome.ok res, db)

/-- `CacheProxy::handle_request` (`src/proxy.rs:101-178`), returning the
outcome and the engine state after the request.

Steps, in source order: for `GET`/`POST` run `cache.get` — a panic inside it
aborts, `Ok(Some(r))` returns the cached response immediately, and `Ok(None)`
as well as `Err(_)` fall through (`if let Ok(Some(response))`); then continue
with `forwardPhase`. -/
def handle_request (cfg : ProxyConfig) (db : Db) (hash : String)
    (method : Method) (engineGetFails : Bool) (now : Int)
    (forwardResult : Except Unit Response) (insertFails : Bool) :
    Outcome × Db :=
  let lookupStep : Option GetOutcome :=
    if method = Method.GET ∨ method = Method.POST then
      some (DataCache.get cfg.ttl (engineGet db hash engineGetFails) now)
    else none
  match lookupStep with
  | some GetOutcome.panic => (Outcome.panic, db)
  | some (GetOutcome.ok (some r)) => (Outcome.ok r, db)
  | _ => forwardPhase cfg db hash now forwardResult insertFails

/-! ### Helper lemmas shared by the claim theorems -/

theorem handle_request_nonread (cfg : ProxyConfig) (db : Db) (hash : String)
    (method : Method) (egf : Bool) (now : Int) (fwd : Except Unit Response)
    (insFails : Bool) (h1 : method ≠ Method.GET) (h2 : method ≠ Method.POST) :
    handle_request cfg db hash method egf now fwd insFails =
      forwardPhase cfg db hash now fwd insFails := by
  have hm : ¬ (method = Method.GET ∨ method = Method.POST) := by tauto
  simp only [handle_request, hm, if_false, if_neg hm]

theorem handle_request_read (cfg : ProxyConfig) (db : Db) (hash : String)
    (method : Method) (egf : Bool) (now : Int) (fwd : Except Unit Response)
    (insFails : Bool) (hm : method = Method.GET ∨ method = Method.POST) :
    handle_request cfg db hash method egf now fwd insFails =
      (match DataCache.get cfg.ttl (engineGet db hash egf) now with
       | GetOutcome.panic => (Outcome.panic, db)
       | GetOutcome.ok (some r) => (Outcome.ok r, db)
       | _ => forwardPhase cfg db hash now fwd insFails) := by
  simp only [handle_request, hm, if_pos, if_true]
  cases DataCache.get cfg.ttl (engineGet db hash egf) now with
  | panic => rfl
  | err => rfl
  | ok r => cases r <;> rfl

theorem lookupName_append (l1 l2 : List (String × String)) (k : String) :
    lookupName (l1 ++ l2) k = ((lookupName l1 k).or (lookupName l2 k)) := by
  unfold lookupName
  rw [List.find?_append]
  cases List.find? (fun p => headerNameEq p.1 k) l1 <;> simp

theorem lookupName_single_ne (key v k : String)
    (h : headerNameEq key k = false) :
    lookupName [(key, v)] k = none := by
  simp [lookupName, List.find?, h]

/-- Values already accumulated by the `to_response` header loop survive the
rest of the loop (later appends cannot shadow an earlier first match). -/
theorem addCacheHeaders_acc_stable (h : HeaderMap) (keys : List String)
    (acc : List (String × String)) (k : String) (v : String)
    (hacc : lookupName acc k = some v) :
    lookupName (addCacheHeaders h keys acc) k = some v := by
  induction keys generalizing acc with
  | nil => exact hacc
  | cons key rest ih =>
    unfold addCacheHeaders
    cases hk : HeaderMap.get h key with
    | some w =>
      apply ih
      rw [lookupName_append, hacc]
      rfl
    | none => exact ih acc hacc

/-- If `k` is one of the looped keys (all with pairwise-distinct folded
names), is present in the stored headers, and is not already in the
accumulator, the loop output carries its stored value. -/
theorem addCacheHeaders_get_of_mem (h : HeaderMap) (keys : List String)
    (acc : List (String × String)) (k : String) (v : String)
    (hdist : List.Pairwise (fun a b => lowerName a ≠ lowerName b) keys)
    (hmem : k ∈ keys) (hget : HeaderMap.get h k = some v)
    (hacc : lookupName acc k = none) :
    lookupName (addCacheHeaders h keys acc) k = some v := by
  induction keys generalizing acc with
  | nil => cases hmem
  | cons key rest ih =>
    rcases List.mem_cons.mp hmem with rfl | hmem'
    · unfold addCacheHeaders
      rw [hget]
      apply addCacheHeaders_acc_stable
      rw [lookupName_append, hacc]
      simp [lookupName, List.find?, headerNameEq]
    · have hne : lowerName key ≠ lowerName k :=
        (List.pairwise_cons.mp hdist).1 k hmem'
      have hdist' := (List.pairwise_cons.mp hdist).2
      have hfalse : headerNameEq key k = false := beq_eq_false_iff_ne.mpr hne
      unfold addCacheHeaders
      cases hk : HeaderMap.get h key with
      | some w =>
        refine ih _ hdist' hmem' ?_
        rw [lookupName_append, hacc, lookupName_single_ne key w k hfalse]
        rfl
      | none => exact ih acc hdist' hmem' hacc

/-- If no looped key folds to `k`'s name and the accumulator does not carry
it either, the loop output does not carry it: headers outside the allow-list
are dropped. -/
theorem addCacheHeaders_get_of_not_mem (h : HeaderMap) (keys : List String)
    (acc : List (String × String)) (k : String)
    (hnm : ∀ key ∈ keys, lowerName key ≠ lowerName k)
    (hacc : lookupName acc k = none) :
    lookupName (addCacheHeaders h keys acc) k = none := by
  induction keys generalizing acc with
  | nil => exact hacc
  | cons key rest ih =>
    have hrest : ∀ key' ∈ rest, lowerName key' ≠ lowerName k :=
      fun key' hk' => hnm key' (List.mem_cons_of_mem _ hk')
    unfold addCacheHeaders
    cases hk : HeaderMap.get h key with
    | some w =>
      have hfalse : headerNameEq key k = false :=
        beq_eq_false_iff_ne.mpr (hnm key (List.mem_cons_self _ _))
      refine ih _ hrest ?_
      rw [lookupName_append, hacc, lookupName_single_ne key w k hfalse]
      rfl
    | none => exact ih acc hrest hacc

theorem dbLookup_insert (db : Db) (k : String) (v : StoredData) :
    dbLookup (dbInsert db k v) k = some v := by
  simp [dbLookup, dbInsert, List.find?]

/-- A fresh (`now - ctime ≤ ttl`), non-empty-body valid entry is a hit. -/
theorem get_valid_hit (ttl : Int) (e : CacheEntry) (now : Int)
    (h1 : now - e.ctime ≤ ttl) (h2 : e.body ≠ []) :
    DataCache.get ttl (Except.ok (some (StoredData.valid e))) now =
      GetOutcome.ok (some e.to_response) := by
  have hlen : 0 < e.body.length := List.length_pos.mpr h2
  have hage : ¬ (now - e.ctime > ttl) := by omega
  simp only [DataCache.get, bincodeDeserialize, if_neg hage, if_pos hlen]

/-- With a valid configured host, the forward phase of a forwarded `Ok(res)`
always returns `res` unchanged, whatever the status, filter, or insert
outcome. -/
theorem forwardPhase_ok_fst (cfg : ProxyConfig) (db : Db) (hash : String)
    (now : Int) (res : Response) (insFails : Bool) (v : String)
    (hv : parseHeaderValue cfg.host = some v) :
    (forwardPhase cfg db hash now (Except.ok res) insFails).1 =
      Outcome.ok res := by
  unfold forwardPhase
  rw [hv]
  dsimp only
  by_cases h1 : res.status = 200
  · rw [if_pos h1]
    by_cases h2 : filter_body cfg.filter_include res.body = false
    · rw [if_pos h2]
    · rw [if_neg h2]
      cases DataCache.insert db hash res now insFails <;> rfl
  · rw [if_neg h1]

/-- With a valid configured host, a forwarder error propagates as the
request outcome. -/
theorem forwardPhase_err (cfg : ProxyConfig) (db : Db) (hash : String)
    (now : Int) (insFails : Bool) (v : String)
    (hv : parseHeaderValue cfg.host = some v) :
    forwardPhase cfg db hash now (Except.error ()) insFails =
      (Outcome.err, db) := by
  unfold forwardPhase
  rw [hv]

/-- With an invalid configured host, the forward phase panics on the
`Host`-header `unwrap`. -/
theorem forwardPhase_panic (cfg : ProxyConfig) (db : Db) (hash : String)
    (now : Int) (fwd : Except Unit Response) (insFails : Bool)
    (hnone : parseHeaderValue cfg.host = none) :
    forwardPhase cfg db hash now fwd insFails = (Outcome.panic, db) := by
  unfold forwardPhase
  rw [hnone]

/-- With a valid configured host, the forward phase never panics. -/
theorem forwardPhase_ne_panic (cfg : ProxyConfig) (db : Db) (hash : String)
    (now : Int) (fwd : Except Unit Response) (insFails : Bool) (v : String)
    (hv : parseHeaderValue cfg.host = some v) :
    (forwardPhase cfg db hash now fwd insFails).1 ≠ Outcome.panic := by
  cases fwd with
  | error e => rw [forwardPhase_err cfg db hash now insFails v hv]; simp
  | ok res => rw [forwardPhase_ok_fst cfg db hash now res insFails v hv]; simp

/-- `DataCache::get` can only panic when the engine get itself fails. -/
theorem get_ok_ne_panic (ttl : Int) (x : Option StoredData) (now : Int) :
    DataCache.get ttl (Except.ok x) now ≠ GetOutcome.panic := by
  cases x with
  | none => simp [DataCache.get]
  | some d =>
    cases d with
    | corrupt => simp [DataCache.get, bincodeDeserialize]
    | valid e =>
      simp only [DataCache.get, bincodeDeserialize]
      by_cases h1 : now - e.ctime > ttl
      · simp [h1]
      · by_cases h2 : e.body.length > 0 <;> simp [h1, h2]

/-! ### C2 -/

/-- C2: body filter. With a non-empty configured filter set, a body passes
`filter_body` iff it is at least `MAGIC_LEN = 12` bytes long and its first 12
bytes exactly match some configured pattern (a `none` pattern is a wildcard);
with an empty filter set every body passes; a body shorter than 12 bytes
never passes a non-empty set; and on the store path (OK status, cache miss)
the forwarded response is inserted into the engine iff the filter accepts
its body. -/
theorem C2_body_filter (filters : List (Option Bytes)) (body : Bytes) :
    (filters = [] → filter_body filters body = true) ∧
    (filters ≠ [] →
      (filter_body filters body = true ↔
        (MAGIC_LEN ≤ body.length ∧
         ∃ f ∈ filters, f = none ∨ f = some (body.take MAGIC_LEN)))) ∧
    (filters ≠ [] → body.length < MAGIC_LEN →
      filter_body filters body = false) ∧
    (∀ cfg : ProxyConfig, ∀ db : Db, ∀ hash : String, ∀ method : Method,
      ∀ now : Int, ∀ res : Response,
      cfg.filter_include = filters →
      dbLookup db hash = none →
      (parseHeaderValue cfg.host).isSome = true →
      res.status = 200 → res.body = body →
      (handle_request cfg db hash method false now (Except.ok res) false).2 =
        (if filter_body filters body then
          dbInsert db hash (StoredData.valid (CacheEntry.from_response res now))
        else db)) := by
  refine ⟨?_, ?_, ?_, ?_⟩
  · intro h; subst h; rfl
  · intro hne
    have hlen : 0 < filters.length := List.length_pos.mpr hne
    unfold filter_body
    rw [if_pos hlen]
    by_cases hb : body.length < MAGIC_LEN
    · rw [if_pos hb]
      constructor
      · intro h; exact absurd h (by simp)
      · rintro ⟨h1, -⟩; omega
    · rw [if_neg hb]
      simp only [decide_eq_true_eq, List.countP_pos_iff]
      constructor
      · rintro ⟨f, hf, hpred⟩
        refine ⟨by omega, f, hf, ?_⟩
        cases f with
        | none => exact Or.inl rfl
        | some p =>
          simp only [beq_iff_eq] at hpred
          exact Or.inr (by rw [hpred])
      · rintro ⟨h1, f, hf, hfe⟩
        refine ⟨f, hf, ?_⟩
        rcases hfe with h | h
        · subst h; rfl
        · subst h; simp
  · intro hne hb
    have hlen : 0 < filters.length := List.length_pos.mpr hne
    unfold filter_body
    rw [if_pos hlen, if_pos hb]
  · intro cfg db hash method now res hfi hmiss hhost hst hbody
    obtain ⟨v, hv⟩ := Option.isSome_iff_exists.mp hhost
    subst hfi; subst hbody
    have hget : DataCache.get cfg.ttl (engineGet db hash false) now
        = GetOutcome.ok none := by
      simp [engineGet, hmiss, DataCache.get]
    have hfwd : (forwardPhase cfg db hash now (Except.ok res) false).2 =
        (if filter_body cfg.filter_include res.body then
          dbInsert db hash (StoredData.valid (CacheEntry.from_response res now))
        else db) := by
      unfold forwardPhase
      rw [hv]
      simp only [hst, if_pos, if_true]
      by_cases hf : filter_body cfg.filter_include res.body
      · simp [hf, DataCache.insert]
      · simp [hf]
    by_cases hm : method = Method.GET ∨ method = Method.POST
    · rw [handle_request_read cfg db hash method false now
        (Except.ok res) false hm, hget]
      exact hfwd
    · rw [handle_request_nonread cfg db hash method false now
        (Except.ok res) false (by tauto) (by tauto)]
      exact hfwd

/-- Witness for C2 at concrete inputs: a 13-byte body whose first 12 bytes
are `0..11` passes the filter `[some [0..11]]` and gets stored by
`handle_request`; a 1-byte body is rejected by the same filter. -/
theorem C2_body_filter_witness :
    filter_body [some (List.range MAGIC_LEN)] (List.range 13) = true ∧
    filter_body [some (List.range MAGIC_LEN)] [0] = false ∧
    (handle_request ⟨"h", [some (List.range MAGIC_LEN)], 60⟩ [] "k"
        Method.GET false 0
        (Except.ok ⟨200, ⟨[]⟩, List.range 13⟩) false).2 =
      dbInsert [] "k" (StoredData.valid
        (CacheEntry.from_response ⟨200, ⟨[]⟩, List.range 13⟩ 0)) := by
  refine ⟨?_, ?_, ?_⟩
  · exact ((C2_body_filter [some (List.range MAGIC_LEN)]
      (List.range 13)).2.1 (by decide)).mpr
      ⟨by decide, some (List.range MAGIC_LEN), by decide, Or.inr (by decide)⟩
  · exact (C2_body_filter [some (List.range MAGIC_LEN)] [0]).2.2.1
      (by decide) (by decide)
  · have h := (C2_body_filter [some (List.range MAGIC_LEN)]
      (List.range 13)).2.2.2
      ⟨"h", [some (List.range MAGIC_LEN)], 60⟩ [] "k" Method.GET 0
      ⟨200, ⟨[]⟩, List.range 13⟩ rfl rfl (by decide) rfl rfl
    rw [h]
    decide

/-! ### C9 -/

/-- C9: a configured non-wildcard pattern whose byte length differs from
`MAGIC_LEN = 12` can never match, because the filter compares the whole
pattern for equality against exactly the body's first 12 bytes; hence a
non-empty filter set consisting only of `some p` patterns with `p.length ≠ 12`
blocks every body. -/
theorem C9_pattern_length (filters : List (Option Bytes)) (body : Bytes)
    (hne : filters ≠ [])
    (hbad : ∀ f ∈ filters, ∃ p, f = some p ∧ p.length ≠ MAGIC_LEN) :
    filter_body filters body = false := by
  have hlen : 0 < filters.length := List.length_pos.mpr hne
  unfold filter_body
  rw [if_pos hlen]
  by_cases hb : body.length < MAGIC_LEN
  · rw [if_pos hb]
  · rw [if_neg hb]
    have hmagic : (body.take MAGIC_LEN).length = MAGIC_LEN := by
      rw [List.length_take]; omega
    have hzero : filters.countP (fun f =>
        match f with
        | some pattern => pattern == body.take MAGIC_LEN
        | none => true) = 0 := by
      rw [List.countP_eq_zero]
      intro f hf
      obtain ⟨p, hp, hplen⟩ := hbad f hf
      subst hp
      intro hcontra
      simp only [beq_iff_eq] at hcontra
      rw [hcontra] at hplen
      exact hplen hmagic
    simp only [hzero]
    rfl

/-- Witness for C9: the single 1-byte pattern `[some [7]]` blocks both a
short body and a long one. -/
theorem C9_pattern_length_witness :
    filter_body [some [7]] (List.range 13) = false ∧
    filter_body [some [7]] [7] = false := by
  constructor
  · exact C9_pattern_length [some [7]] (List.range 13) (by decide)
      (by
        intro f hf
        simp only [List.mem_singleton] at hf
        exact ⟨[7], by rw [hf], by decide⟩)
  · exact C9_pattern_length [some [7]] [7] (by decide)
      (by
        intro f hf
        simp only [List.mem_singleton] at hf
        exact ⟨[7], by rw [hf], by decide⟩)

/-! ### C3 -/

/-- C3: TTL boundary. For a stored entry with a non-empty body, a get whose
elapsed time `now - ctime` is at most the configured TTL is a hit returning
the reconstructed entry, and a get whose elapsed time strictly exceeds the
TTL is a miss (`Ok(None)`): an entry aged exactly TTL is still served, stale
data never is. -/
theorem C3_ttl_boundary (ttl : Int) (e : CacheEntry) (now : Int)
    (hbody : e.body ≠ []) :
    (now - e.ctime ≤ ttl →
      DataCache.get ttl (Except.ok (some (StoredData.valid e))) now =
        GetOutcome.ok (some e.to_response)) ∧
    (now - e.ctime > ttl →
      DataCache.get ttl (Except.ok (some (StoredData.valid e))) now =
        GetOutcome.ok none) := by
  have hlen : 0 < e.body.length := List.length_pos.mpr hbody
  constructor
  · intro hfresh
    have hage : ¬ (now - e.ctime > ttl) := by omega
    simp only [DataCache.get, bincodeDeserialize, if_neg hage, if_pos hlen]
  · intro hstale
    simp only [DataCache.get, bincodeDeserialize, if_pos hstale]

/-- Witness for C3: with TTL 3600, an entry created at time 0 read at 3600
(age exactly TTL) is a hit, and read at 3601 is a miss. -/
theorem C3_ttl_boundary_witness :
    DataCache.get 3600
        (Except.ok (some (StoredData.valid ⟨200, ⟨[]⟩, [1], 0⟩))) 3600 =
      GetOutcome.ok (some (CacheEntry.to_response ⟨200, ⟨[]⟩, [1], 0⟩)) ∧
    DataCache.get 3600
        (Except.ok (some (StoredData.valid ⟨200, ⟨[]⟩, [1], 0⟩))) 3601 =
      GetOutcome.ok none := by
  constructor
  · exact (C3_ttl_boundary 3600 ⟨200, ⟨[]⟩, [1], 0⟩ 3600 (by decide)).1
      (by decide)
  · exact (C3_ttl_boundary 3600 ⟨200, ⟨[]⟩, [1], 0⟩ 3601 (by decide)).2
      (by decide)

/-! ### C5 -/

/-- C5: empty-body entries are never served. For every stored entry whose
body has zero length, `DataCache::get` returns `Ok(None)` at every read time
— in particular also when the entry is fresh and within TTL. -/
theorem C5_empty_body (ttl now : Int) (e : CacheEntry) (he : e.body = []) :
    DataCache.get ttl (Except.ok (some (StoredData.valid e))) now =
      GetOutcome.ok none := by
  simp only [DataCache.get, bincodeDeserialize, he]
  by_cases hage : now - e.ctime > ttl
  · rw [if_pos hage]
  · rw [if_neg hage]
    simp

/-- Witness for C5: a freshly inserted empty-body entry (age 0, TTL 3600) is
a miss. -/
theorem C5_empty_body_witness :
    DataCache.get 3600
        (Except.ok (some (StoredData.valid ⟨200, ⟨[]⟩, [], 0⟩))) 0 =
      GetOutcome.ok none :=
  C5_empty_body 3600 0 ⟨200, ⟨[]⟩, [], 0⟩ (by decide)


/-! ### C4 -/

/-- C4: round-trip. Inserting a response and immediately reading the same
key back (within TTL, non-empty body) yields a hit whose status and body are
identical to the original, whose value for every allow-listed header name
carried by the original is preserved, in which every header outside the
allow-list is dropped, and which carries the synthetic `Server` identity
header. -/
theorem C4_roundtrip (ttl : Int) (db : Db) (hash : String) (r : Response)
    (t0 t : Int) (hfresh : t - t0 ≤ ttl) (hbody : r.body ≠ []) :
    ∃ db' r',
      DataCache.insert db hash r t0 false = Except.ok db' ∧
      DataCache.get ttl (Except.ok (dbLookup db' hash)) t =
        GetOutcome.ok (some r') ∧
      r'.status = r.status ∧
      r'.body = r.body ∧
      (∀ k ∈ CACHE_HEADER_KEYS, ∀ v, HeaderMap.get r.headers k = some v →
        HeaderMap.get r'.headers k = some v) ∧
      (∀ k, lowerName k ∉ CACHE_HEADER_KEYS.map lowerName →
        lowerName k ≠ lowerName "Server" → HeaderMap.get r'.headers k = none) ∧
      HeaderMap.get r'.headers "Server" = some serverHeaderValue := by
  refine ⟨dbInsert db hash (StoredData.valid (CacheEntry.from_response r t0)),
    (CacheEntry.from_response r t0).to_response, rfl, ?_, rfl, rfl, ?_, ?_, ?_⟩
  · rw [dbLookup_insert]
    exact get_valid_hit ttl (CacheEntry.from_response r t0) t hfresh hbody
  · intro k hk v hv
    have hserver : headerNameEq "Server" k = false := by
      fin_cases hk <;> decide
    exact addCacheHeaders_get_of_mem r.headers CACHE_HEADER_KEYS _ k v
      (by decide) hk hv (lookupName_single_ne _ _ _ hserver)
  · intro k hk1 hk2
    have hnm : ∀ key ∈ CACHE_HEADER_KEYS, lowerName key ≠ lowerName k := by
      intro key hkey heq
      exact hk1 (heq ▸ List.mem_map_of_mem lowerName hkey)
    have hserver : headerNameEq "Server" k = false :=
      beq_eq_false_iff_ne.mpr (fun h => hk2 (h.symm))
    exact addCacheHeaders_get_of_not_mem r.headers CACHE_HEADER_KEYS _ k
      hnm (lookupName_single_ne _ _ _ hserver)
  · exact addCacheHeaders_acc_stable r.headers CACHE_HEADER_KEYS _ "Server"
      serverHeaderValue (by decide)

/-- Witness for C4 at a concrete response carrying one allow-listed header
(`Content-Type`) and one non-allow-listed header (`X-Private`). -/
theorem C4_roundtrip_witness :
    ∃ db' r',
      DataCache.insert [] "k"
        ⟨200, ⟨[("Content-Type", "application/json"), ("X-Private", "1")]⟩,
          [1, 2, 3]⟩ 0 false = Except.ok db' ∧
      DataCache.get 3600 (Except.ok (dbLookup db' "k")) 10 =
        GetOutcome.ok (some r') ∧
      r'.status = 200 ∧
      r'.body = [1, 2, 3] ∧
      (∀ k ∈ CACHE_HEADER_KEYS, ∀ v,
        HeaderMap.get ⟨[("Content-Type", "application/json"),
          ("X-Private", "1")]⟩ k = some v →
        HeaderMap.get r'.headers k = some v) ∧
      (∀ k, lowerName k ∉ CACHE_HEADER_KEYS.map lowerName →
        lowerName k ≠ lowerName "Server" → HeaderMap.get r'.headers k = none) ∧
      HeaderMap.get r'.headers "Server" = some serverHeaderValue := by
  have h := C4_roundtrip 3600 [] "k"
    ⟨200, ⟨[("Content-Type", "application/json"), ("X-Private", "1")]⟩,
      [1, 2, 3]⟩ 0 10 (by decide) (by decide)
  obtain ⟨db', r', h1, h2, h3, h4, h5, h6, h7⟩ := h
  exact ⟨db', r', h1, h2, h3, h4, h5, h6, h7⟩


/-! ### C6 -/

/-- C6: only an OK (200) forwarded response is a storage candidate. For any
forwarded response with another status code the orchestrator performs no
insert and returns the response unchanged, so a repeat of the same
fingerprint still misses the cache. -/
theorem C6_non_ok_not_stored (cfg : ProxyConfig) (db : Db) (hash : String)
    (method : Method) (now : Int) (insFails : Bool) (res : Response)
    (hmiss : dbLookup db hash = none)
    (hhost : (parseHeaderValue cfg.host).isSome = true)
    (hstatus : res.status ≠ 200) :
    handle_request cfg db hash method false now (Except.ok res) insFails =
      (Outcome.ok res, db) ∧
    DataCache.get cfg.ttl
      (engineGet (handle_request cfg db hash method false now
        (Except.ok res) insFails).2 hash false) now = GetOutcome.ok none := by
  obtain ⟨v, hv⟩ := Option.isSome_iff_exists.mp hhost
  have hget : DataCache.get cfg.ttl (engineGet db hash false) now
      = GetOutcome.ok none := by
    simp [engineGet, hmiss, DataCache.get]
  have hfwd : forwardPhase cfg db hash now (Except.ok res) insFails =
      (Outcome.ok res, db) := by
    unfold forwardPhase
    rw [hv]
    dsimp only
    rw [if_neg hstatus]
  have hmain : handle_request cfg db hash method false now
      (Except.ok res) insFails = (Outcome.ok res, db) := by
    by_cases hm : method = Method.GET ∨ method = Method.POST
    · rw [handle_request_read cfg db hash method false now
        (Except.ok res) insFails hm, hget]
      exact hfwd
    · rw [handle_request_nonread cfg db hash method false now
        (Except.ok res) insFails (by tauto) (by tauto)]
      exact hfwd
  refine ⟨hmain, ?_⟩
  rw [hmain]
  exact hget

/-- Witness for C6: a 404 upstream response is returned as-is, the engine
state stays empty, and the repeat lookup still misses. -/
theorem C6_non_ok_not_stored_witness :
    handle_request ⟨"example.com", [], 3600⟩ [] "h" Method.GET false 0
        (Except.ok ⟨404, ⟨[]⟩, [1, 2]⟩) false =
      (Outcome.ok ⟨404, ⟨[]⟩, [1, 2]⟩, []) ∧
    DataCache.get 3600
      (engineGet (handle_request ⟨"example.com", [], 3600⟩ [] "h" Method.GET
        false 0 (Except.ok ⟨404, ⟨[]⟩, [1, 2]⟩) false).2 "h" false) 0 =
      GetOutcome.ok none :=
  C6_non_ok_not_stored ⟨"example.com", [], 3600⟩ [] "h" Method.GET 0 false
    ⟨404, ⟨[]⟩, [1, 2]⟩ rfl (by decide) (by decide)

/-! ### C7 -/

/-- C7: a cache-insert failure never fails the request and never alters the
response: for a forwarded OK response passing the body filter, the outcome
under a failing insert is `Ok(res)` and identical to the outcome under a
successful insert. -/
theorem C7_insert_failure_harmless (cfg : ProxyConfig) (db : Db)
    (hash : String) (method : Method) (now : Int) (res : Response)
    (hmiss : dbLookup db hash = none)
    (hhost : (parseHeaderValue cfg.host).isSome = true)
    (hstatus : res.status = 200)
    (hfilter : filter_body cfg.filter_include res.body = true) :
    (handle_request cfg db hash method false now (Except.ok res) true).1 =
      Outcome.ok res ∧
    (handle_request cfg db hash method false now (Except.ok res) true).1 =
      (handle_request cfg db hash method false now (Except.ok res) false).1 := by
  obtain ⟨v, hv⟩ := Option.isSome_iff_exists.mp hhost
  have hget : DataCache.get cfg.ttl (engineGet db hash false) now
      = GetOutcome.ok none := by
    simp [engineGet, hmiss, DataCache.get]
  have hone : ∀ insFails : Bool,
      (handle_request cfg db hash method false now
        (Except.ok res) insFails).1 = Outcome.ok res := by
    intro insFails
    by_cases hm : method = Method.GET ∨ method = Method.POST
    · rw [handle_request_read cfg db hash method false now
        (Except.ok res) insFails hm, hget]
      exact forwardPhase_ok_fst cfg db hash now res insFails v hv
    · rw [handle_request_nonread cfg db hash method false now
        (Except.ok res) insFails (by tauto) (by tauto)]
      exact forwardPhase_ok_fst cfg db hash now res insFails v hv
  exact ⟨hone true, (hone true).trans (hone false).symm⟩

/-- Witness for C7: concrete OK response under empty filter set; a failing
insert still yields the same `Ok` response as a successful one. -/
theorem C7_insert_failure_harmless_witness :
    (handle_request ⟨"example.com", [], 3600⟩ [] "h" Method.GET false 0
        (Except.ok ⟨200, ⟨[]⟩, [1]⟩) true).1 =
      Outcome.ok ⟨200, ⟨[]⟩, [1]⟩ ∧
    (handle_request ⟨"example.com", [], 3600⟩ [] "h" Method.GET false 0
        (Except.ok ⟨200, ⟨[]⟩, [1]⟩) true).1 =
      (handle_request ⟨"example.com", [], 3600⟩ [] "h" Method.GET false 0
        (Except.ok ⟨200, ⟨[]⟩, [1]⟩) false).1 :=
  C7_insert_failure_harmless ⟨"example.com", [], 3600⟩ [] "h" Method.GET 0
    ⟨200, ⟨[]⟩, [1]⟩ rfl (by decide) rfl (by decide)

/-! ### C8 -/

/-- C8: method dispatch. For any method other than `GET`/`POST` the cache is
never consulted — the request proceeds straight to the forward phase for
every engine state and engine-failure oracle; for `GET`/`POST`, a cache hit
returns the cached response immediately with no dependence on the forwarder
result (no forwarder call) and no change to the engine state. -/
theorem C8_method_dispatch (cfg : ProxyConfig) (db : Db) (hash : String)
    (method : Method) (egf : Bool) (now : Int) (fwd : Except Unit Response)
    (insFails : Bool) (r : Response) :
    (method ≠ Method.GET → method ≠ Method.POST →
      handle_request cfg db hash method egf now fwd insFails =
        forwardPhase cfg db hash now fwd insFails) ∧
    ((method = Method.GET ∨ method = Method.POST) →
      DataCache.get cfg.ttl (engineGet db hash egf) now =
        GetOutcome.ok (some r) →
      ∀ fwd2 : Except Unit Response, ∀ insFails2 : Bool,
        handle_request cfg db hash method egf now fwd2 insFails2 =
          (Outcome.ok r, db)) := by
  constructor
  · intro h1 h2
    exact handle_request_nonread cfg db hash method egf now fwd insFails h1 h2
  · intro hm hget fwd2 insFails2
    rw [handle_request_read cfg db hash method egf now fwd2 insFails2 hm, hget]

/-- Witness for C8: a `PUT` goes to the forward phase even with a fresh
cached entry and a failing engine; a `GET` hit returns the cached response
for two different forwarder results. -/
theorem C8_method_dispatch_witness :
    (handle_request ⟨"example.com", [], 3600⟩
        [("h", StoredData.valid ⟨200, ⟨[]⟩, [1], 0⟩)] "h" Method.PUT true 0
        (Except.ok ⟨500, ⟨[]⟩, []⟩) false =
      forwardPhase ⟨"example.com", [], 3600⟩
        [("h", StoredData.valid ⟨200, ⟨[]⟩, [1], 0⟩)] "h" 0
        (Except.ok ⟨500, ⟨[]⟩, []⟩) false) ∧
    (handle_request ⟨"example.com", [], 3600⟩
        [("h", StoredData.valid ⟨200, ⟨[]⟩, [1], 0⟩)] "h" Method.GET false 0
        (Except.error ()) false =
      (Outcome.ok (CacheEntry.to_response ⟨200, ⟨[]⟩, [1], 0⟩),
        [("h", StoredData.valid ⟨200, ⟨[]⟩, [1], 0⟩)])) ∧
    (handle_request ⟨"example.com", [], 3600⟩
        [("h", StoredData.valid ⟨200, ⟨[]⟩, [1], 0⟩)] "h" Method.GET false 0
        (Except.ok ⟨500, ⟨[]⟩, []⟩) true =
      (Outcome.ok (CacheEntry.to_response ⟨200, ⟨[]⟩, [1], 0⟩),
        [("h", StoredData.valid ⟨200, ⟨[]⟩, [1], 0⟩)])) := by
  have hget : DataCache.get (3600 : Int)
      (engineGet [("h", StoredData.valid ⟨200, ⟨[]⟩, [1], 0⟩)] "h" false) 0 =
      GetOutcome.ok (some (CacheEntry.to_response ⟨200, ⟨[]⟩, [1], 0⟩)) := by
    rw [show engineGet [("h", StoredData.valid ⟨200, ⟨[]⟩, [1], 0⟩)] "h" false
        = Except.ok (some (StoredData.valid ⟨200, ⟨[]⟩, [1], 0⟩)) from rfl]
    exact get_valid_hit 3600 ⟨200, ⟨[]⟩, [1], 0⟩ 0 (by decide) (by decide)
  refine ⟨?_, ?_, ?_⟩
  · exact (C8_method_dispatch ⟨"example.com", [], 3600⟩
      [("h", StoredData.valid ⟨200, ⟨[]⟩, [1], 0⟩)] "h" Method.PUT true 0
      (Except.ok ⟨500, ⟨[]⟩, []⟩) false ⟨500, ⟨[]⟩, []⟩).1
      (by decide) (by decide)
  · exact (C8_method_dispatch ⟨"example.com", [], 3600⟩
      [("h", StoredData.valid ⟨200, ⟨[]⟩, [1], 0⟩)] "h" Method.GET false 0
      (Except.error ()) false
      (CacheEntry.to_response ⟨200, ⟨[]⟩, [1], 0⟩)).2
      (Or.inl rfl) hget (Except.error ()) false
  · exact (C8_method_dispatch ⟨"example.com", [], 3600⟩
      [("h", StoredData.valid ⟨200, ⟨[]⟩, [1], 0⟩)] "h" Method.GET false 0
      (Except.ok ⟨500, ⟨[]⟩, []⟩) true
      (CacheEntry.to_response ⟨200, ⟨[]⟩, [1], 0⟩)).2
      (Or.inl rfl) hget (Except.ok ⟨500, ⟨[]⟩, []⟩) true

/-! ### C10 -/

/-- C10: for every request that reaches the forwarding step (cache miss,
cache-read error, or non-read method; engine get healthy), the `Host`
rewrite unwraps the parse of the configured host: if that string is not a
valid header value the handler panics, and under the precondition that it
parses the handler never panics. -/
theorem C10_host_unwrap (cfg : ProxyConfig) (db : Db) (hash : String)
    (method : Method) (now : Int) (fwd : Except Unit Response)
    (insFails : Bool)
    (hreach : (method = Method.GET ∨ method = Method.POST) →
      ∀ r : Response, DataCache.get cfg.ttl (engineGet db hash false) now ≠
        GetOutcome.ok (some r)) :
    (parseHeaderValue cfg.host = none →
      (handle_request cfg db hash method false now fwd insFails).1 =
        Outcome.panic) ∧
    ((parseHeaderValue cfg.host).isSome = true →
      (handle_request cfg db hash method false now fwd insFails).1 ≠
        Outcome.panic) := by
  have hred : handle_request cfg db hash method false now fwd insFails =
      forwardPhase cfg db hash now fwd insFails := by
    by_cases hm : method = Method.GET ∨ method = Method.POST
    · rw [handle_request_read cfg db hash method false now fwd insFails hm]
      cases hget : DataCache.get cfg.ttl (engineGet db hash false) now with
      | panic =>
        exact absurd (by rw [show engineGet db hash false
          = Except.ok (dbLookup db hash) from rfl] at hget; exact hget)
          (get_ok_ne_panic cfg.ttl (dbLookup db hash) now)
      | err => rfl
      | ok r =>
        cases r with
        | none => rfl
        | some r0 => exact absurd hget (hreach hm r0)
    · exact handle_request_nonread cfg db hash method false now fwd insFails
        (by tauto) (by tauto)
  rw [hred]
  constructor
  · intro hnone
    rw [forwardPhase_panic cfg db hash now fwd insFails hnone]
  · intro hsome
    obtain ⟨v, hv⟩ := Option.isSome_iff_exists.mp hsome
    exact forwardPhase_ne_panic cfg db hash now fwd insFails v hv

/-- Witness for C10: an invalid configured host (containing a newline)
panics a `POST` on an empty cache; the valid host `"example.com"` does not
panic. -/
theorem C10_host_unwrap_witness :
    (handle_request ⟨"bad\nhost", [], 3600⟩ [] "h" Method.POST false 0
        (Except.ok ⟨200, ⟨[]⟩, [1]⟩) false).1 = Outcome.panic ∧
    (handle_request ⟨"example.com", [], 3600⟩ [] "h" Method.POST false 0
        (Except.ok ⟨200, ⟨[]⟩, [1]⟩) false).1 ≠ Outcome.panic := by
  constructor
  · exact (C10_host_unwrap ⟨"bad\nhost", [], 3600⟩ [] "h" Method.POST 0
      (Except.ok ⟨200, ⟨[]⟩, [1]⟩) false
      (fun _ r => by simp [engineGet, dbLookup, DataCache.get])).1
      (by decide)
  · exact (C10_host_unwrap ⟨"example.com", [], 3600⟩ [] "h" Method.POST 0
      (Except.ok ⟨200, ⟨[]⟩, [1]⟩) false
      (fun _ r => by simp [engineGet, dbLookup, DataCache.get])).2
      (by decide)

/-! ### C1 -/

/-- C1 counterexample: the claim says a corrupt stored entry terminates the
request with an error and does not fall through to forwarding. At this
concrete input the fingerprint maps to corrupt stored bytes (so
`DataCache::get` returns `Err`), yet `handle_request` does not return an
error: it falls through to forwarding and returns the forwarded response. -/
theorem C1_counterexample :
    dbLookup [("h", StoredData.corrupt)] "h" = some StoredData.corrupt ∧
    DataCache.get 3600
      (engineGet [("h", StoredData.corrupt)] "h" false) 0 = GetOutcome.err ∧
    (handle_request ⟨"example.com", [], 3600⟩ [("h", StoredData.corrupt)] "h"
        Method.GET false 0 (Except.ok ⟨200, ⟨[]⟩, [1]⟩) false).1 =
      Outcome.ok ⟨200, ⟨[]⟩, [1]⟩ := by
  decide

/-- C1 (amended): a corrupt stored entry makes `DataCache::get` return an
error, but `handle_request` (`if let Ok(Some(response))`) coerces any cache
read error to a miss and falls through to forwarding — a forwarder success
is returned as `Ok` and a forwarder error as that error; an engine get
failure instead panics inside `DataCache::get` (`.unwrap()`), aborting the
request abnormally rather than returning an error. -/
theorem C1_corrupt_read_behavior (cfg : ProxyConfig) (db : Db) (hash : String)
    (method : Method) (now : Int) (r : Response) (insFails : Bool)
    (hm : method = Method.GET ∨ method = Method.POST)
    (hc : dbLookup db hash = some StoredData.corrupt)
    (hh : (parseHeaderValue cfg.host).isSome = true) :
    DataCache.get cfg.ttl (engineGet db hash false) now = GetOutcome.err ∧
    (handle_request cfg db hash method false now (Except.ok r) insFails).1 =
      Outcome.ok r ∧
    (handle_request cfg db hash method false now
      (Except.error ()) insFails).1 = Outcome.err ∧
    (handle_request cfg db hash method true now (Except.ok r) insFails).1 =
      Outcome.panic := by
  obtain ⟨v, hv⟩ := Option.isSome_iff_exists.mp hh
  have hget : DataCache.get cfg.ttl (engineGet db hash false) now =
      GetOutcome.err := by
    simp [engineGet, hc, DataCache.get, bincodeDeserialize]
  refine ⟨hget, ?_, ?_, ?_⟩
  · rw [handle_request_read cfg db hash method false now
      (Except.ok r) insFails hm, hget]
    exact forwardPhase_ok_fst cfg db hash now r insFails v hv
  · rw [handle_request_read cfg db hash method false now
      (Except.error ()) insFails hm, hget,
      forwardPhase_err cfg db hash now insFails v hv]
  · rw [handle_request_read cfg db hash method true now
      (Except.ok r) insFails hm]
    rfl

/-- Witness for C1's amended theorem at a concrete corrupt entry. -/
theorem C1_corrupt_read_behavior_witness :
    DataCache.get 3600
      (engineGet [("h", StoredData.corrupt)] "h" false) 5 = GetOutcome.err ∧
    (handle_request ⟨"example.com", [], 3600⟩ [("h", StoredData.corrupt)] "h"
        Method.POST false 5 (Except.ok ⟨200, ⟨[]⟩, [2]⟩) false).1 =
      Outcome.ok ⟨200, ⟨[]⟩, [2]⟩ ∧
    (handle_request ⟨"example.com", [], 3600⟩ [("h", StoredData.corrupt)] "h"
        Method.POST false 5 (Except.error ()) false).1 = Outcome.err ∧
    (handle_request ⟨"example.com", [], 3600⟩ [("h", StoredData.corrupt)] "h"
        Method.POST true 5 (Except.ok ⟨200, ⟨[]⟩, [2]⟩) false).1 =
      Outcome.panic :=
  C1_corrupt_read_behavior ⟨"example.com", [], 3600⟩
    [("h", StoredData.corrupt)] "h" Method.POST 5 ⟨200, ⟨[]⟩, [2]⟩ false
    (Or.inr rfl) rfl (by decide)

end Datacache
